import Mathlib

/-
  Verification development for the sol-meme-scanner pipeline (src/app.py).

  The Python source is shallowly embedded: DexScreener pair objects become the
  `Pair` structure (every JSON field that the program reads is an `Option`, so
  that absent/null fields are representable), Python floats become `ℚ`, the
  environment-derived thresholds become an explicit `Config` record, and the
  wall-clock read `now_ms()` becomes an explicit `now : Int` argument at each
  call site that reads the clock.  Effectful boundaries (the RugCheck oracle,
  the Discord channel) are modelled as explicit inputs.
-/

namespace MemeScanner

/-- Embedding of the `baseToken` sub-object of a DexScreener pair. -/
structure BaseToken where
  address : Option String
  name : Option String
  symbol : Option String
deriving DecidableEq

/-- Embedding of a `txns` window object (`{"buys": _, "sells": _}`). -/
structure Txns where
  buys : Option Int
  sells : Option Int
deriving DecidableEq

/-- Embedding of a DexScreener pair record: every field read by src/app.py,
optional because the JSON may omit any of them (`safe_get` / `.get`). -/
structure Pair where
  baseToken : Option BaseToken
  pairCreatedAt : Option Int
  liquidityUsd : Option ℚ
  fdv : Option ℚ
  txnsM5 : Option Txns
  txnsH1 : Option Txns
  volumeM5 : Option ℚ
  volumeH1 : Option ℚ
  priceChangeM5 : Option ℚ
  priceChangeH1 : Option ℚ
  holders : Option Int
  chain : Option String
  priceUsd : Option String
  url : Option String
deriving DecidableEq

/-- The environment-derived configuration constants of src/app.py (lines 41-52). -/
structure Config where
  maxTokenAgeMinutes : Int
  maxFdv : ℚ
  maxLiqUsd : ℚ
  minLiqUsd : ℚ
  minBuySellRatio5m : ℚ
  minTxns5m : Int
  minVolume5m : ℚ
  minHoldersHint : Int
  scoreThreshold : ℚ
  keywords : List String

/-- DEFAULT_KEYWORDS from src/app.py lines 36-40. -/
def defaultKeywords : List String :=
  ["pepe", "doge", "shib", "inu", "cat", "kitty", "wojak", "elon", "trump", "420",
   "moon", "pump", "based", "turbo", "toad", "frog", "bonk", "meme", "wagmi", "lambo",
   "ponke", "pippin", "giga", "rekt", "gme", "wallstreet", "corgi", "pudgy", "jito"]

/-- The default values of the environment configuration (src/app.py lines 44-52). -/
def defaultConfig : Config where
  maxTokenAgeMinutes := 360
  maxFdv := 8000000
  maxLiqUsd := 300000
  minLiqUsd := 1000
  minBuySellRatio5m := 3 / 2
  minTxns5m := 20
  minVolume5m := 2000
  minHoldersHint := 0
  scoreThreshold := 40
  keywords := defaultKeywords

def emptyBase : BaseToken := ⟨none, none, none⟩

def emptyTxns : Txns := ⟨none, none⟩

/-- `str.lower()` on the ASCII strings the program handles. -/
def lowerStr (s : String) : String := ⟨s.data.map Char.toLower⟩

/-- Does `hay` start with `needle`?  (List-of-chars version.) -/
def startsWithL : List Char → List Char → Bool
  | [], _ => true
  | _ :: _, [] => false
  | a :: as, b :: bs => (a == b) && startsWithL as bs

/-- Python's substring containment `needle in hay`, on lists of characters. -/
def containsSub (needle : List Char) : List Char → Bool
  | [] => startsWithL needle []
  | h :: t => startsWithL needle (h :: t) || containsSub needle t

/- Signal extractors: the `safe_get`/`get` accesses with their defaults, as
performed by `memecoin_score` and `passes_hard_filters` in src/app.py. -/

/-- `int(tx5.get("buys", 0))` where `tx5 = safe_get(pair, "txns", "m5", default={}) or {}`. -/
def tx5buys (p : Pair) : Int := ((p.txnsM5.getD emptyTxns).buys).getD 0

/-- `int(tx5.get("sells", 0))`. -/
def tx5sells (p : Pair) : Int := ((p.txnsM5.getD emptyTxns).sells).getD 0

/-- `bsr5 = buys5 / max(1, sells5)` (Python true division, so a rational). -/
def bsr5 (p : Pair) : ℚ := (tx5buys p : ℚ) / ((max 1 (tx5sells p) : Int) : ℚ)

/-- `float(safe_get(pair, "volume", "m5", default=0) or 0)`. -/
def vol5 (p : Pair) : ℚ := p.volumeM5.getD 0

/-- `float(safe_get(pair, "volume", "h1", default=0) or 0)`. -/
def vol1h (p : Pair) : ℚ := p.volumeH1.getD 0

/-- `float(safe_get(pair, "liquidity", "usd", default=0) or 0)`. -/
def liqUsd (p : Pair) : ℚ := p.liquidityUsd.getD 0

/-- `float(pair.get("fdv") or 0)`. -/
def fdvVal (p : Pair) : ℚ := p.fdv.getD 0

/-- `float(safe_get(pair, "priceChange", "m5", default=0) or 0)`. -/
def priceChange5m (p : Pair) : ℚ := p.priceChangeM5.getD 0

/-- `float(safe_get(pair, "priceChange", "h1", default=0) or 0)`. -/
def priceChange1h (p : Pair) : ℚ := p.priceChangeH1.getD 0

/-- `int(pair.get("holders", 0) or 0)`. -/
def holdersVal (p : Pair) : Int := p.holders.getD 0

/-- `pair.get("chain") or ""`. -/
def chainStr (p : Pair) : String := p.chain.getD ""

/-- `safe_get(p, "baseToken", "address", default="")`. -/
def baseAddr (p : Pair) : String := ((p.baseToken.getD emptyBase).address).getD ""

/-- Python's `round(x, 2)` on the exact rational value. -/
def round2 (x : ℚ) : ℚ := ((round (x * 100) : ℤ) : ℚ) / 100

/-- `memecoin_score` from src/app.py lines 127-157: the successive `score += ...`
steps, the liquidity band bonus, the FDV penalty, and the final `round(score, 2)`. -/
def memecoin_score (cfg : Config) (p : Pair) : ℚ :=
  let s0 : ℚ := 0
  let s1 := s0 + max 0 (bsr5 p - 1) * 25
  let s2 := s1 + min (vol5 p / 2000) 5 * 8
  let s3 := s2 + min (vol1h p / 10000) 5 * 6
  let s4 := s3 + max 0 (priceChange5m p) * 0.3
  let s5 := s4 + max 0 (priceChange1h p) * 0.15
  let s6 := if cfg.minLiqUsd ≤ liqUsd p ∧ liqUsd p ≤ cfg.maxLiqUsd then s5 + 8 else s5
  let s7 := s6 - max 0 ((fdvVal p - cfg.maxFdv) / 1000000)
  round2 s7

/- The spec's named scoring constants (§4.5 of the specification). -/

def W1 : ℚ := 25
def W2 : ℚ := 8
def V1 : ℚ := 2000
def capA : ℚ := 5
def W3 : ℚ := 6
def V2 : ℚ := 10000
def capB : ℚ := 5
def W4 : ℚ := 0.3
def W5 : ℚ := 0.15
def liqBonus : ℚ := 8
def penaltyDivisor : ℚ := 1000000

/-- The scoring formula exactly as the specification states it (§4.5), to be
compared with the source-derived `memecoin_score`. -/
def spec_score (cfg : Config) (p : Pair) : ℚ :=
  round2 (W1 * max 0 (bsr5 p - 1)
    + W2 * min (vol5 p / V1) capA
    + W3 * min (vol1h p / V2) capB
    + W4 * max 0 (priceChange5m p)
    + W5 * max 0 (priceChange1h p)
    + (if cfg.minLiqUsd ≤ liqUsd p ∧ liqUsd p ≤ cfg.maxLiqUsd then liqBonus else 0)
    - max 0 ((fdvVal p - cfg.maxFdv) / penaltyDivisor))

/-- `looks_like_meme` from src/app.py lines 123-125: `MEME_RE` is the
case-insensitive alternation of the (escaped) keywords, searched in
`f"{name} {symbol}"`; a match exists iff some keyword occurs as a
case-insensitive substring of the blob. -/
def looks_like_meme (cfg : Config) (name symbol : String) : Bool :=
  let blob := name ++ " " ++ symbol
  cfg.keywords.any (fun k => containsSub (lowerStr k).data (lowerStr blob).data)

/-- `passes_hard_filters` from src/app.py lines 159-200.  `pair.get("pairCreatedAt")`
with the falsy test `if not created` is `p.pairCreatedAt.getD 0 = 0` (absent, null
or zero all fail), and the `now_ms()` call on line 163 is the explicit `now`
argument. -/
def passes_hard_filters (cfg : Config) (p : Pair) (now : Int) : Bool :=
  let created := p.pairCreatedAt.getD 0
  if created = 0 then false
  else
    let ageMin : ℚ := ((now - created : Int) : ℚ) / 60000
    if (cfg.maxTokenAgeMinutes : ℚ) < ageMin then false
    else
      let liq := liqUsd p
      if liq < cfg.minLiqUsd ∨ cfg.maxLiqUsd < liq then false
      else
        let fdv := fdvVal p
        if fdv ≤ 0 ∨ cfg.maxFdv < fdv then false
        else
          let txns5 := tx5buys p + tx5sells p
          if txns5 < cfg.minTxns5m then false
          else if bsr5 p < cfg.minBuySellRatio5m then false
          else if vol5 p < cfg.minVolume5m then false
          else if cfg.minHoldersHint ≠ 0 ∧ holdersVal p < cfg.minHoldersHint then false
          else if ¬ looks_like_meme cfg ((p.baseToken.getD emptyBase).name.getD "")
                     ((p.baseToken.getD emptyBase).symbol.getD "") then false
          else true

/- The individual predicates of the hard-filter chain, in source order: each is
the Boolean complement of exactly the corresponding early-return condition. -/

/-- Check 1: `if not created: return False` (absent, null or 0 timestamp). -/
def createdOk (p : Pair) : Bool := !decide (p.pairCreatedAt.getD 0 = 0)

/-- Check 2: the pair age in minutes does not exceed `MAX_TOKEN_AGE_MINUTES`. -/
def ageOk (cfg : Config) (p : Pair) (now : Int) : Bool :=
  !decide ((cfg.maxTokenAgeMinutes : ℚ) < ((now - p.pairCreatedAt.getD 0 : Int) : ℚ) / 60000)

/-- Check 3: liquidity is in the configured band. -/
def liqOk (cfg : Config) (p : Pair) : Bool :=
  !decide (liqUsd p < cfg.minLiqUsd ∨ cfg.maxLiqUsd < liqUsd p)

/-- Check 4: `0 < FDV ≤ MAX_FDV`. -/
def fdvOk (cfg : Config) (p : Pair) : Bool :=
  !decide (fdvVal p ≤ 0 ∨ cfg.maxFdv < fdvVal p)

/-- Check 5: at least `MIN_TXNS_5M` transactions in 5 minutes. -/
def txns5Ok (cfg : Config) (p : Pair) : Bool :=
  !decide (tx5buys p + tx5sells p < cfg.minTxns5m)

/-- Check 6: 5-minute buy/sell ratio at least `MIN_BUY_SELL_RATIO_5M`. -/
def bsrOk (cfg : Config) (p : Pair) : Bool :=
  !decide (bsr5 p < cfg.minBuySellRatio5m)

/-- Check 7: 5-minute volume at least `MIN_VOLUME_5M`. -/
def vol5Ok (cfg : Config) (p : Pair) : Bool :=
  !decide (vol5 p < cfg.minVolume5m)

/-- Check 8: the optional holders hint. -/
def holdersOk (cfg : Config) (p : Pair) : Bool :=
  !decide (cfg.minHoldersHint ≠ 0 ∧ holdersVal p < cfg.minHoldersHint)

/-- Check 9: the keyword filter. -/
def keywordOk (cfg : Config) (p : Pair) : Bool :=
  looks_like_meme cfg ((p.baseToken.getD emptyBase).name.getD "")
    ((p.baseToken.getD emptyBase).symbol.getD "")

/-- The hard-filter chain as the ordered list of its predicates, in the
evaluation order of src/app.py lines 159-200. -/
def filterChecks (cfg : Config) (p : Pair) (now : Int) : List Bool :=
  [createdOk p, ageOk cfg p now, liqOk cfg p, fdvOk cfg p, txns5Ok cfg p,
   bsrOk cfg p, vol5Ok cfg p, holdersOk cfg p, keywordOk cfg p]

/-- The index of the first `false` entry of a list of check results, if any. -/
def firstFailIdx : List Bool → Option Nat
  | [] => none
  | b :: t => if !b then some 0 else (firstFailIdx t).map (· + 1)

/-- The index of the first failing predicate of the hard-filter chain, if any. -/
def firstFailingCheck (cfg : Config) (p : Pair) (now : Int) : Option Nat :=
  firstFailIdx (filterChecks cfg p now)

/- ===== Deduplication (src/app.py lines 214-249) ===== -/

/-- One pass of the accumulation loop
`for p in found: ... seen.add(base_addr); pairs.append(p)` from
`fetch_candidate_pairs`: skip records with an empty or already-seen base
address, skip records whose `chain` is not `"solana"` (case-insensitively),
keep the rest in order. -/
def addPairs : List String × List Pair → List Pair → List String × List Pair
  | acc, [] => acc
  | (seen, out), p :: ps =>
    if baseAddr p = "" ∨ baseAddr p ∈ seen then addPairs (seen, out) ps
    else if lowerStr (chainStr p) ≠ "solana" then addPairs (seen, out) ps
    else addPairs (baseAddr p :: seen, out ++ [p]) ps

/-- The keyword phase of `fetch_candidate_pairs`: the per-keyword query results,
iterated in order, accumulated into the deduplicated working set. -/
def keywordPhase (keywordResults : List (List Pair)) : List String × List Pair :=
  keywordResults.foldl (fun a found => addPairs a found) ([], [])

/-- `fetch_candidate_pairs` from src/app.py lines 214-249, as a function of the
adapter results: the keyword query results first, then (only when fewer than 30
pairs were kept) the wide fallback search result. -/
def fetch_candidate_pairs (keywordResults : List (List Pair))
    (fallbackResults : List Pair) : List Pair :=
  let acc := keywordPhase keywordResults
  if acc.2.length < 30 then (addPairs acc fallbackResults).2 else acc.2

/- ===== Candidate construction, scoring pipeline, ranking (src/app.py 251-298) ===== -/

/-- `link_bundle` from src/app.py lines 88-94. -/
structure Links where
  dexscreenerLink : String
  pumpfunLink : String
  axiomLink : String
  dexscreenerSearchLink : String
deriving DecidableEq

def link_bundle (mint : String) : Links where
  dexscreenerLink := "https://dexscreener.com/solana/" ++ mint
  pumpfunLink := "https://www.pump.fun/coin/" ++ mint
  axiomLink := "https://axiom.trade/pulse?search=" ++ mint
  dexscreenerSearchLink := "https://dexscreener.com/solana?q=" ++ mint

/-- The unit table of `ms_to_ago_str` (src/app.py line 77). -/
def agoUnits : List (String × Nat) := [("d", 86400), ("h", 3600), ("m", 60), ("s", 1)]

/-- The accumulation loop of `ms_to_ago_str`: for each unit, if the remaining
seconds cover it, emit `f"{val}{label}"` and keep the remainder; stop after two
components. -/
def agoLoop : Nat → List (String × Nat) → List String → List String
  | _, [], out => out
  | deltaS, (label, secs) :: rest, out =>
    let step := if secs ≤ deltaS then (deltaS % secs, out ++ [toString (deltaS / secs) ++ label])
                else (deltaS, out)
    if step.2.length = 2 then step.2 else agoLoop step.1 rest step.2

/-- `ms_to_ago_str` from src/app.py lines 75-86 (`//` is Python floor division,
hence `Int.fdiv`); the `now_ms()` call is the explicit `now`. -/
def ms_to_ago_str (now ms : Int) : String :=
  let deltaS : Nat := (max 1 ((now - ms).fdiv 1000)).toNat
  String.intercalate " " (agoLoop deltaS agoUnits []) ++ " ago"

/-- The enriched candidate dictionary built in `find_memecoin_candidates`
(src/app.py lines 282-295). -/
structure Candidate where
  name : String
  symbol : String
  mint : String
  score : ℚ
  age : String
  liq_usd : ℚ
  fdv : ℚ
  price_usd : Option String
  url : Option String
  bsr5 : ℚ
  vol5 : ℚ
  links : Links
deriving DecidableEq

/-- The body of the enrichment loop of `find_memecoin_candidates` (src/app.py
lines 258-295) for one filtered pair: `None` when the record is skipped
(missing mint, failed rug check, or score below the threshold).  `rug` is the
per-mint verdict of `rugcheck_ok` for this cycle. -/
def build_candidate (cfg : Config) (now : Int) (rug : String → Bool) (p : Pair) :
    Option Candidate :=
  let base := p.baseToken.getD emptyBase
  match base.address with
  | none => none
  | some mint =>
    if mint = "" then none
    else if ¬ rug mint then none
    else
      let score := memecoin_score cfg p
      if score < cfg.scoreThreshold then none
      else some
        { name := base.name.getD "Unknown"
          symbol := base.symbol.getD ""
          mint := mint
          score := score
          age := if p.pairCreatedAt.getD 0 = 0 then "n/a"
                 else ms_to_ago_str now (p.pairCreatedAt.getD 0)
          liq_usd := liqUsd p
          fdv := fdvVal p
          price_usd := p.priceUsd
          url := p.url
          bsr5 := round2 (bsr5 p)
          vol5 := vol5 p
          links := link_bundle mint }

/-- The ordering used by `out.sort(key=lambda x: x["score"], reverse=True)`:
descending by score. -/
def scoreDescRel (a b : Candidate) : Prop := b.score ≤ a.score

instance : DecidableRel scoreDescRel :=
  fun a b => inferInstanceAs (Decidable (b.score ≤ a.score))

instance : IsTotal Candidate scoreDescRel := ⟨fun a b => le_total b.score a.score⟩

instance : IsTrans Candidate scoreDescRel := ⟨fun _ _ _ h1 h2 => le_trans h2 h1⟩

/-- `find_memecoin_candidates` from src/app.py lines 251-298: hard filters, the
enrichment loop (mint present, rug check, score threshold), then the stable
descending sort by score (Python `list.sort` is stable; `List.insertionSort`
with `scoreDescRel` is the stable descending sort). -/
def find_memecoin_candidates (cfg : Config) (now : Int) (rug : String → Bool)
    (rawPairs : List Pair) : List Candidate :=
  let filtered := rawPairs.filter (fun p => passes_hard_filters cfg p now)
  let out := filtered.filterMap (build_candidate cfg now rug)
  List.insertionSort scoreDescRel out

/-- The `/candidates` endpoint (src/app.py lines 366-369): the ranked list
truncated to `limit`. -/
def candidates_endpoint (cfg : Config) (now : Int) (rug : String → Bool)
    (rawPairs : List Pair) (limit : Nat) : List Candidate :=
  (find_memecoin_candidates cfg now rug rawPairs).take limit

/- ===== Risk screen (src/app.py lines 107-121) ===== -/

/-- The observable outcome of one RugCheck oracle call: `exn` for any raised
exception (network error, timeout, undecodable body), or a decoded response
with its HTTP status and optional free-text verdict field. -/
inductive OracleOutcome where
  | exn : OracleOutcome
  | resp (status : Nat) (verdict : Option String) : OracleOutcome
deriving DecidableEq

/-- `rugcheck_ok` from src/app.py lines 107-121, as a function of the oracle
outcome: non-200 status is `True`; a 200 response is `False` exactly when the
lowered verdict contains "honeypot", "malicious" or "scam"; any exception is
caught and yields `True`. -/
def rugcheck_ok (o : OracleOutcome) : Bool :=
  match o with
  | .exn => true
  | .resp status verdict =>
    if status ≠ 200 then true
    else
      let v := lowerStr (verdict.getD "")
      if containsSub "honeypot".data v.data || containsSub "malicious".data v.data
          || containsSub "scam".data v.data then false
      else true

/- ===== Scheduler cycle delivery (src/app.py lines 339-357) ===== -/

/-- The Sink deliveries of one `memescanner` cycle body, as a function of the
channel configuration/visibility and the cycle's ranked candidate list: the
body returns without sending when `CHANNEL_ID` is 0, when the channel is not
visible, or when the candidate list is empty, and otherwise sends exactly one
message carrying `cands[0]`. -/
def memescanner_deliveries (channelId : Int) (channelVisible : Bool)
    (cands : List Candidate) : List Candidate :=
  if channelId = 0 then []
  else if ¬ channelVisible then []
  else
    match cands with
    | [] => []
    | top :: _ => [top]

/- ===== Concrete records used by counterexamples and witnesses ===== -/

/-- A pair that passes every hard filter when it is 360 minutes old:
liquidity 5000, FDV 1000000, 30 buys / 5 sells, volume 3000, name "DOGE MOON". -/
def goodPair : Pair where
  baseToken := some ⟨some "So1MintAddr", some "DOGE MOON", some "DM"⟩
  pairCreatedAt := some 60000
  liquidityUsd := some 5000
  fdv := some 1000000
  txnsM5 := some ⟨some 30, some 5⟩
  txnsH1 := none
  volumeM5 := some 3000
  volumeH1 := none
  priceChangeM5 := none
  priceChangeH1 := none
  holders := none
  chain := some "solana"
  priceUsd := none
  url := none

/-- `goodPair` with liquidity 5000 and FDV 0: the record of the spec's FDV
example. -/
def fdvZeroPair : Pair := { goodPair with fdv := some 0 }

/-- A minimal all-absent pair used as the base record of witnesses. -/
def blankPair : Pair where
  baseToken := none
  pairCreatedAt := none
  liquidityUsd := none
  fdv := none
  txnsM5 := none
  txnsH1 := none
  volumeM5 := none
  volumeH1 := none
  priceChangeM5 := none
  priceChangeH1 := none
  holders := none
  chain := some "solana"
  priceUsd := none
  url := none

/-- A keyword-query record with lower-case base address "abc". -/
def dupPairLower : Pair := { blankPair with baseToken := some ⟨some "abc", some "PEPE", some "PEPE"⟩ }

/-- A record with the same address up-cased: "ABC". -/
def dupPairUpper : Pair := { blankPair with baseToken := some ⟨some "ABC", some "PEPE2", some "PEPE2"⟩ }

/-- A concrete candidate used by the delivery counterexample. -/
def cand1 : Candidate where
  name := "DOGE MOON"
  symbol := "DM"
  mint := "So1MintAddr"
  score := 145
  age := "10m ago"
  liq_usd := 5000
  fdv := 1000000
  price_usd := none
  url := none
  bsr5 := 6
  vol5 := 3000
  links := link_bundle "So1MintAddr"

/-- A second, distinct candidate used by the delivery counterexample. -/
def cand2 : Candidate := { cand1 with name := "PEPE", mint := "So1Mint2", score := 101 }

/-- The scoring expression of `memecoin_score` as a function of the seven
extracted signals, used to reason about per-signal monotonicity. -/
def scoreFormula (cfg : Config) (b v w q1 q2 liq fdv : ℚ) : ℚ :=
  let s0 : ℚ := 0
  let s1 := s0 + max 0 (b - 1) * 25
  let s2 := s1 + min (v / 2000) 5 * 8
  let s3 := s2 + min (w / 10000) 5 * 6
  let s4 := s3 + max 0 q1 * 0.3
  let s5 := s4 + max 0 q2 * 0.15
  let s6 := if cfg.minLiqUsd ≤ liq ∧ liq ≤ cfg.maxLiqUsd then s5 + 8 else s5
  let s7 := s6 - max 0 ((fdv - cfg.maxFdv) / 1000000)
  round2 s7

/-- The candidate that the pipeline builds from `goodPair` at clock 21660000:
score 145 (= 25*5 + 8*1.5 + 8), buy/sell ratio 6. -/
def goodCand : Candidate where
  name := "DOGE MOON"
  symbol := "DM"
  mint := "So1MintAddr"
  score := 145
  age := ms_to_ago_str 21660000 60000
  liq_usd := 5000
  fdv := 1000000
  price_usd := none
  url := none
  bsr5 := 6
  vol5 := 3000
  links := link_bundle "So1MintAddr"

/- =====================  Theorems  ===================== -/

/-- An early `return False` guard is the Boolean conjunction of the guard's
complement with the continuation. -/
theorem if_false_else (c : Prop) [Decidable c] (x : Bool) :
    (if c then false else x) = (!decide c && x) := by
  by_cases h : c <;> simp [h]

/-- The early-return chain of `passes_hard_filters` equals the conjunction of
its nine predicates in order. -/
theorem passes_hard_filters_eq_checks (cfg : Config) (p : Pair) (now : Int) :
    passes_hard_filters cfg p now = (filterChecks cfg p now).all id := by
  show (if _ = 0 then false else _) = _
  rw [if_false_else, if_false_else, if_false_else, if_false_else, if_false_else,
    if_false_else, if_false_else, if_false_else, if_false_else]
  simp only [filterChecks, List.all_cons, List.all_nil, id_eq, Bool.and_true,
    createdOk, ageOk, liqOk, fdvOk, txns5Ok, bsrOk, vol5Ok, holdersOk, keywordOk,
    decide_not, Bool.not_not, Bool.decide_coe, Bool.and_assoc]

/-- C1: For every record (and every configuration), `memecoin_score` returns
exactly the specification's formula
W1*max(0, bsr5-1) + W2*min(volume5m/V1, capA) + W3*min(volume1h/V2, capB)
+ W4*max(0, priceChange5m) + W5*max(0, priceChange1h) + liquidity-band bonus
- max(0, (FDV-maxFdv)/penaltyDivisor), rounded to two decimal places, with
W1=25, W2=8, V1=2000, capA=5, W3=6, V2=10000, capB=5, W4=0.3, W5=0.15,
Bonus=8, PenaltyDivisor=1000000, missing signal fields defaulting to 0. -/
theorem memecoin_score_eq_spec (cfg : Config) (p : Pair) :
    memecoin_score cfg p = spec_score cfg p := by
  unfold memecoin_score spec_score W1 W2 V1 capA W3 V2 capB W4 W5 liqBonus penaltyDivisor
  split <;> ring_nf

/- Evaluation lemmas for the division-bearing checks at the concrete records
(the remaining checks evaluate by `rfl`). -/

theorem ageOk_goodPair_at360 : ageOk defaultConfig goodPair 21660000 = true := by
  simp only [ageOk, Bool.not_eq_true', decide_eq_false_iff_not]
  norm_num [goodPair, defaultConfig]

theorem ageOk_goodPair_at359 : ageOk defaultConfig goodPair 21600000 = true := by
  simp only [ageOk, Bool.not_eq_true', decide_eq_false_iff_not]
  norm_num [goodPair, defaultConfig]

theorem ageOk_goodPair_at361 : ageOk defaultConfig goodPair 21720000 = false := by
  simp only [ageOk, Bool.not_eq_false, decide_eq_true_eq]
  norm_num [goodPair, defaultConfig]

theorem bsrOk_goodPair : bsrOk defaultConfig goodPair = true := by
  simp only [bsrOk, Bool.not_eq_true', decide_eq_false_iff_not]
  norm_num [goodPair, defaultConfig, bsr5, tx5buys, tx5sells, emptyTxns]

theorem passes_goodPair_at360 : passes_hard_filters defaultConfig goodPair 21660000 = true := by
  rw [passes_hard_filters_eq_checks]
  have h1 : createdOk goodPair = true := rfl
  have h3 : liqOk defaultConfig goodPair = true := rfl
  have h4 : fdvOk defaultConfig goodPair = true := rfl
  have h5 : txns5Ok defaultConfig goodPair = true := rfl
  have h7 : vol5Ok defaultConfig goodPair = true := rfl
  have h8 : holdersOk defaultConfig goodPair = true := rfl
  have h9 : keywordOk defaultConfig goodPair = true := rfl
  simp [filterChecks, h1, ageOk_goodPair_at360, h3, h4, h5, bsrOk_goodPair, h7, h8, h9]

/-- C5 counterexample: the hard-filter chain's verdict does depend on when it is
invoked.  `goodPair` (created at epoch-ms 60000) passes every filter when the
clock reads 21660000 (age exactly 360 minutes) but is rejected when the clock
reads 21720000 (age 361 minutes), with the record and the configuration
unchanged: `passes_hard_filters` reads the clock via `now_ms()` rather than
taking "now" as an explicit input. -/
theorem hard_filter_not_time_invariant :
    passes_hard_filters defaultConfig goodPair 21660000 = true ∧
    passes_hard_filters defaultConfig goodPair 21720000 = false := by
  refine ⟨passes_goodPair_at360, ?_⟩
  rw [passes_hard_filters_eq_checks]
  simp [filterChecks, ageOk_goodPair_at361]

/-- C5 (amended): the hard-filter chain reads no hidden state besides the
clock: its verdict is a function of the record, the configuration and the
clock reading, and it depends on the clock reading only through the age
predicate — two evaluations whose age predicates agree (in particular, two
evaluations at the same clock reading) yield the same accept/reject result. -/
theorem hard_filter_determined_by_age (cfg : Config) (p : Pair) (n1 n2 : Int)
    (h : ageOk cfg p n1 = ageOk cfg p n2) :
    passes_hard_filters cfg p n1 = passes_hard_filters cfg p n2 := by
  rw [passes_hard_filters_eq_checks, passes_hard_filters_eq_checks]
  simp only [filterChecks, h]

/-- Witness for the amended C5 theorem at concrete inputs. -/
theorem hard_filter_determined_by_age_witness :
    passes_hard_filters defaultConfig goodPair 21660000 =
      passes_hard_filters defaultConfig goodPair 21600000 :=
  hard_filter_determined_by_age defaultConfig goodPair 21660000 21600000
    (by rw [ageOk_goodPair_at360, ageOk_goodPair_at359])

/-- C8: a record whose FDV is ≤ 0 (in particular an absent FDV, defaulted to 0)
or strictly greater than `maxFdv` is rejected by the hard-filter chain, for
every configuration and every clock reading. -/
theorem fdv_out_of_range_rejected (cfg : Config) (p : Pair) (now : Int)
    (h : fdvVal p ≤ 0 ∨ cfg.maxFdv < fdvVal p) :
    passes_hard_filters cfg p now = false := by
  have hf : fdvOk cfg p = false := by
    simp [fdvOk, h]
  rw [passes_hard_filters_eq_checks]
  simp [filterChecks, hf]

/-- Witness for C8: the spec's example record with liquidity 5000 USD and FDV 0
passes the age and liquidity predicates that precede the FDV predicate, and is
rejected. -/
theorem fdv_out_of_range_rejected_witness :
    ageOk defaultConfig fdvZeroPair 21660000 = true ∧
    liqOk defaultConfig fdvZeroPair = true ∧
    passes_hard_filters defaultConfig fdvZeroPair 21660000 = false := by
  refine ⟨?_, rfl, fdv_out_of_range_rejected defaultConfig fdvZeroPair 21660000
    (Or.inl (by simp [fdvVal, fdvZeroPair]))⟩
  simp only [ageOk, Bool.not_eq_true', decide_eq_false_iff_not]
  norm_num [fdvZeroPair, goodPair, defaultConfig]

/-- C10: a record whose pair-creation timestamp field is absent, null or 0 is
rejected by the hard-filter chain, and the rejection comes from the first
predicate of the chain (index 0), before any other predicate. -/
theorem missing_created_rejected_first (cfg : Config) (p : Pair) (now : Int)
    (h : p.pairCreatedAt = none ∨ p.pairCreatedAt = some 0) :
    passes_hard_filters cfg p now = false ∧ firstFailingCheck cfg p now = some 0 := by
  have hc : createdOk p = false := by
    rcases h with h | h <;> simp [createdOk, h]
  constructor
  · rw [passes_hard_filters_eq_checks]
    simp [filterChecks, hc]
  · simp [firstFailingCheck, firstFailIdx, filterChecks, hc]

/-- Witness for C10 at a concrete record with an absent creation timestamp. -/
theorem missing_created_rejected_first_witness :
    passes_hard_filters defaultConfig blankPair 0 = false ∧
    firstFailingCheck defaultConfig blankPair 0 = some 0 :=
  missing_created_rejected_first defaultConfig blankPair 0 (Or.inl rfl)

/-- C4: the risk screen returns `false` if and only if the oracle responded
with HTTP 200 and a decodable body whose verdict contains "honeypot",
"malicious" or "scam" as a case-insensitive substring; every other outcome
(non-200 status, timeout, malformed body, any exception) yields `true`
(fail-open). -/
theorem rugcheck_ok_false_iff (o : OracleOutcome) :
    rugcheck_ok o = false ↔
      ∃ v : Option String, o = .resp 200 v ∧
        (containsSub "honeypot".data (lowerStr (v.getD "")).data
          || containsSub "malicious".data (lowerStr (v.getD "")).data
          || containsSub "scam".data (lowerStr (v.getD "")).data) = true := by
  cases o with
  | exn => simp [rugcheck_ok]
  | resp status verdict =>
    by_cases hs : status = 200
    · subst hs
      constructor
      · intro hfalse
        refine ⟨verdict, rfl, ?_⟩
        by_contra hv
        rw [Bool.not_eq_true] at hv
        simp [rugcheck_ok, hv] at hfalse
      · rintro ⟨v, hveq, hv⟩
        obtain rfl : verdict = v := by
          have := (OracleOutcome.resp.injEq 200 verdict 200 v).mp hveq
          exact this.2
        simp [rugcheck_ok, hv]
    · simp [rugcheck_ok, hs]

/-- Witness for C4: a 200 response whose verdict reads "Honeypot detected" is
screened out. -/
theorem rugcheck_ok_false_iff_witness :
    rugcheck_ok (.resp 200 (some "Honeypot detected")) = false :=
  (rugcheck_ok_false_iff (.resp 200 (some "Honeypot detected"))).mpr
    ⟨some "Honeypot detected", rfl, by decide⟩

/-- C6 counterexample: a cycle with an empty candidate list delivers nothing to
the Sink (the body returns early instead of delivering the empty sequence),
and a cycle with two ranked candidates delivers a single message carrying only
the top candidate, not the whole sequence — `cand2` is never delivered. -/
theorem memescanner_delivery_counterexample :
    memescanner_deliveries 1 true [] = [] ∧
    memescanner_deliveries 1 true [cand1, cand2] = [cand1] ∧
    cand2 ∉ memescanner_deliveries 1 true [cand1, cand2] := by
  refine ⟨rfl, rfl, ?_⟩
  intro hmem
  rw [show memescanner_deliveries 1 true [cand1, cand2] = [cand1] from rfl] at hmem
  have : cand2 = cand1 := List.mem_singleton.mp hmem
  exact absurd (congrArg Candidate.name this) (by decide)

/-- C6 (amended): each completed cycle invokes the Sink at most once, an empty
candidate list (or an unset/invisible channel) produces no delivery, and a
nonempty list produces exactly one message carrying only the top-ranked
candidate. -/
theorem memescanner_delivers_at_most_top (channelId : Int) (vis : Bool)
    (cands : List Candidate) :
    (memescanner_deliveries channelId vis cands).length ≤ 1 ∧
    (cands = [] → memescanner_deliveries channelId vis cands = []) ∧
    (∀ top rest, cands = top :: rest → channelId ≠ 0 → vis = true →
      memescanner_deliveries channelId vis cands = [top]) := by
  unfold memescanner_deliveries
  by_cases h0 : channelId = 0
  · simp [h0]
  · cases vis with
    | false => simp [h0]
    | true =>
      cases cands with
      | nil => simp [h0]
      | cons top rest =>
        refine ⟨by simp [h0], by simp, ?_⟩
        intro t r ht _ _
        rw [List.cons.injEq] at ht
        simp [h0, ht.1]

/-- Witness for the amended C6 theorem at concrete inputs. -/
theorem memescanner_delivers_at_most_top_witness :
    memescanner_deliveries 1 true [cand1] = [cand1] :=
  (memescanner_delivers_at_most_top 1 true [cand1]).2.2 cand1 [] rfl (by decide) rfl

/- ===== Deduplication lemmas (C3) ===== -/

/-- The working-set invariant of the dedup loop: `seen` holds exactly the base
addresses of the kept pairs, and the kept base addresses are pairwise distinct. -/
def SeenInv (acc : List String × List Pair) : Prop :=
  (∀ a, a ∈ acc.1 ↔ a ∈ acc.2.map baseAddr) ∧ (acc.2.map baseAddr).Nodup

theorem addPairs_out_extends : ∀ (ps : List Pair) (acc : List String × List Pair),
    ∃ rest, (addPairs acc ps).2 = acc.2 ++ rest
  | [], acc => ⟨[], by cases acc; simp [addPairs]⟩
  | p :: ps, ⟨seen, out⟩ => by
    unfold addPairs
    split_ifs with h1 h2
    · exact addPairs_out_extends ps (seen, out)
    · exact addPairs_out_extends ps (seen, out)
    · obtain ⟨rest, hr⟩ := addPairs_out_extends ps (baseAddr p :: seen, out ++ [p])
      exact ⟨p :: rest, by rw [hr]; simp⟩

theorem addPairs_inv : ∀ (ps : List Pair) (acc : List String × List Pair),
    SeenInv acc → SeenInv (addPairs acc ps)
  | [], acc, h => by cases acc; simpa [addPairs] using h
  | p :: ps, ⟨seen, out⟩, h => by
    unfold addPairs
    split_ifs with h1 h2
    · exact addPairs_inv ps (seen, out) h
    · exact addPairs_inv ps (seen, out) h
    · push_neg at h1
      obtain ⟨-, hnot⟩ := h1
      apply addPairs_inv
      constructor
      · intro a
        rw [List.mem_cons, h.1 a, List.map_append]
        simp only [List.map_cons, List.map_nil, List.mem_append, List.mem_singleton]
        tauto
      · rw [List.map_append]
        simp only [List.map_cons, List.map_nil]
        refine List.Nodup.append h.2 (List.nodup_singleton _) ?_
        intro a ha hb
        rw [List.mem_singleton] at hb
        subst hb
        exact hnot ((h.1 _).mpr ha)

theorem foldl_addPairs_inv : ∀ (kw : List (List Pair)) (acc : List String × List Pair),
    SeenInv acc → SeenInv (kw.foldl (fun a found => addPairs a found) acc)
  | [], _, h => by simpa using h
  | l :: kw, acc, h => by
    simp only [List.foldl_cons]
    exact foldl_addPairs_inv kw (addPairs acc l) (addPairs_inv l acc h)

theorem foldl_addPairs_out_extends : ∀ (kw : List (List Pair)) (acc : List String × List Pair),
    ∃ rest, (kw.foldl (fun a found => addPairs a found) acc).2 = acc.2 ++ rest
  | [], acc => ⟨[], by simp⟩
  | l :: kw, acc => by
    simp only [List.foldl_cons]
    obtain ⟨r1, h1⟩ := addPairs_out_extends l acc
    obtain ⟨r2, h2⟩ := foldl_addPairs_out_extends kw (addPairs acc l)
    exact ⟨r1 ++ r2, by rw [h2, h1, List.append_assoc]⟩

theorem keywordPhase_inv (kw : List (List Pair)) : SeenInv (keywordPhase kw) :=
  foldl_addPairs_inv kw ([], []) ⟨fun a => by simp, by simp⟩

/-- C3 counterexample: the deduplicator keys on the exact base address string,
with no case normalization.  Two keyword-query records carrying the addresses
"abc" and "ABC" — equal after case-insensitive normalization — are both kept,
so the output does contain two records with equal normalized token address. -/
theorem fetch_candidate_pairs_case_counterexample :
    fetch_candidate_pairs [[dupPairLower, dupPairUpper]] [] = [dupPairLower, dupPairUpper]
    ∧ lowerStr (baseAddr dupPairLower) = lowerStr (baseAddr dupPairUpper)
    ∧ dupPairLower ≠ dupPairUpper := by
  refine ⟨rfl, rfl, ?_⟩
  intro h
  exact absurd (congrArg baseAddr h) (by decide)

/-- C3 (amended): deduplication is by exact (case-sensitive) base address: the
output of `fetch_candidate_pairs` contains no two records with equal base
address; the keyword-phase output is kept unchanged as a prefix of the final
output, and an output record whose address already occurs among the
keyword-phase records is that keyword-phase record — a fallback record can
never replace a keyword-query record with the same address. -/
theorem fetch_candidate_pairs_dedup (kw : List (List Pair)) (fb : List Pair) :
    ((fetch_candidate_pairs kw fb).map baseAddr).Nodup
    ∧ (∃ rest, fetch_candidate_pairs kw fb = (keywordPhase kw).2 ++ rest)
    ∧ ∀ p, p ∈ fetch_candidate_pairs kw fb →
        baseAddr p ∈ (keywordPhase kw).2.map baseAddr → p ∈ (keywordPhase kw).2 := by
  have hinv := keywordPhase_inv kw
  rw [show fetch_candidate_pairs kw fb
      = (if (keywordPhase kw).2.length < 30 then (addPairs (keywordPhase kw) fb).2
         else (keywordPhase kw).2) from rfl]
  split_ifs with hlen
  · have hinv2 := addPairs_inv fb (keywordPhase kw) hinv
    obtain ⟨rest, hr⟩ := addPairs_out_extends fb (keywordPhase kw)
    refine ⟨hinv2.2, ⟨rest, hr⟩, ?_⟩
    intro p hp hmem
    rw [hr] at hp
    have hnodup := hinv2.2
    rw [hr, List.map_append] at hnodup
    rcases List.mem_append.mp hp with hin | hin
    · exact hin
    · exfalso
      obtain ⟨-, -, hdisj⟩ := List.nodup_append.mp hnodup
      exact hdisj hmem (List.mem_map_of_mem baseAddr hin)
  · exact ⟨hinv.2, ⟨[], by simp⟩, fun p hp _ => hp⟩

/-- Witness for the amended C3 theorem: with keyword record "abc" and fallback
record "ABC", the keyword record is the one kept for its address. -/
theorem fetch_candidate_pairs_dedup_witness :
    dupPairLower ∈ (keywordPhase [[dupPairLower]]).2 :=
  (fetch_candidate_pairs_dedup [[dupPairLower]] [dupPairUpper]).2.2 dupPairLower
    (by decide) (by decide)

/- ===== Ranker / selector (C2) ===== -/

theorem find_memecoin_candidates_def (cfg : Config) (now : Int) (rug : String → Bool)
    (rawPairs : List Pair) :
    find_memecoin_candidates cfg now rug rawPairs
      = List.insertionSort scoreDescRel
          ((rawPairs.filter (fun p => passes_hard_filters cfg p now)).filterMap
            (build_candidate cfg now rug)) := rfl

/-- A candidate emitted by the enrichment loop has score at least the
configured threshold. -/
theorem build_candidate_score_ge (cfg : Config) (now : Int) (rug : String → Bool)
    (p : Pair) (c : Candidate) (h : build_candidate cfg now rug p = some c) :
    cfg.scoreThreshold ≤ c.score := by
  cases haddr : (p.baseToken.getD emptyBase).address with
  | none => simp [build_candidate, haddr] at h
  | some mint =>
    simp only [build_candidate, haddr] at h
    split_ifs at h with hmint hrug hscore hage
    · obtain rfl := Option.some.inj h
      simpa using not_lt.mp hscore
    · obtain rfl := Option.some.inj h
      simpa using not_lt.mp hscore

/-- C2: for every input (raw records, configuration, oracle verdicts, clock)
and every limit, the `/candidates` output — the ranked sequence truncated to
`limit` — is sorted in descending order of score, has length at most `limit`,
and every element of it has score at least the configured threshold. -/
theorem candidates_endpoint_ranked (cfg : Config) (now : Int) (rug : String → Bool)
    (rawPairs : List Pair) (limit : Nat) :
    List.Sorted scoreDescRel (candidates_endpoint cfg now rug rawPairs limit)
    ∧ (candidates_endpoint cfg now rug rawPairs limit).length ≤ limit
    ∧ ∀ c ∈ candidates_endpoint cfg now rug rawPairs limit,
        cfg.scoreThreshold ≤ c.score := by
  unfold candidates_endpoint
  rw [find_memecoin_candidates_def]
  refine ⟨?_, List.length_take_le _ _, ?_⟩
  · exact List.Pairwise.sublist (List.take_sublist _ _)
      (List.sorted_insertionSort scoreDescRel _)
  · intro c hc
    have hc2 := List.mem_of_mem_take hc
    rw [List.mem_insertionSort] at hc2
    obtain ⟨p, -, hbuild⟩ := List.mem_filterMap.mp hc2
    exact build_candidate_score_ge cfg now rug p c hbuild

/- Evaluation of the pipeline at the concrete record `goodPair` (the spec's §8
example: 30 buys / 5 sells, volume 3000, liquidity 50000-band bonus, score
well above the default threshold 40). -/

theorem bsr5_goodPair : bsr5 goodPair = 6 := by
  norm_num [bsr5, tx5buys, tx5sells, goodPair, emptyTxns, max_def]

theorem memecoin_score_goodPair : memecoin_score defaultConfig goodPair = 145 := by
  unfold memecoin_score
  rw [bsr5_goodPair]
  norm_num [vol5, vol1h, liqUsd, fdvVal, priceChange5m, priceChange1h, goodPair, defaultConfig,
    max_def, min_def, round2, round_eq]

theorem build_candidate_goodPair :
    build_candidate defaultConfig 21660000 (fun _ => true) goodPair = some goodCand := by
  simp only [build_candidate,
    show (goodPair.baseToken.getD emptyBase).address = some "So1MintAddr" from rfl,
    memecoin_score_goodPair, bsr5_goodPair]
  norm_num [goodPair, goodCand, defaultConfig, emptyBase, liqUsd, fdvVal, vol5, round2, round_eq]
  intro hfalse
  exact absurd hfalse (by decide)

theorem find_memecoin_candidates_goodPair :
    find_memecoin_candidates defaultConfig 21660000 (fun _ => true) [goodPair] = [goodCand] := by
  rw [find_memecoin_candidates_def]
  rw [show ([goodPair].filter (fun p => passes_hard_filters defaultConfig p 21660000)) = [goodPair]
      from by simp [passes_goodPair_at360]]
  rw [show ([goodPair].filterMap (build_candidate defaultConfig 21660000 (fun _ => true)))
      = [goodCand] from by simp [build_candidate_goodPair]]
  rfl

/-- Witness for C2: the candidate that the pipeline produces from `goodPair`
is in the endpoint output and its score (145) is at least the default
threshold (40). -/
theorem candidates_endpoint_ranked_witness :
    defaultConfig.scoreThreshold ≤ goodCand.score :=
  (candidates_endpoint_ranked defaultConfig 21660000 (fun _ => true) [goodPair] 5).2.2 goodCand
    (by rw [show candidates_endpoint defaultConfig 21660000 (fun _ => true) [goodPair] 5
          = [goodCand] from by
            unfold candidates_endpoint
            rw [find_memecoin_candidates_goodPair]
            rfl]
        exact List.mem_singleton_self goodCand)

/- ===== Scorer monotonicity (C7) ===== -/

theorem round2_mono {x y : ℚ} (h : x ≤ y) : round2 x ≤ round2 y := by
  unfold round2
  have hr : round (x * 100) ≤ round (y * 100) := by
    rw [round_eq, round_eq]
    exact Int.floor_le_floor (by linarith)
  have hc : ((round (x * 100) : ℤ) : ℚ) ≤ ((round (y * 100) : ℤ) : ℚ) := by exact_mod_cast hr
  linarith

theorem memecoin_score_eq_formula (cfg : Config) (p : Pair) :
    memecoin_score cfg p = scoreFormula cfg (bsr5 p) (vol5 p) (vol1h p)
      (priceChange5m p) (priceChange1h p) (liqUsd p) (fdvVal p) := rfl

theorem scoreFormula_mono_bsr (cfg : Config) (v w q1 q2 liq fdv : ℚ) {b1 b2 : ℚ}
    (h : b1 ≤ b2) :
    scoreFormula cfg b1 v w q1 q2 liq fdv ≤ scoreFormula cfg b2 v w q1 q2 liq fdv := by
  unfold scoreFormula
  show round2 _ ≤ round2 _
  apply round2_mono
  have ht : max 0 (b1 - 1) * 25 ≤ max 0 (b2 - 1) * 25 :=
    mul_le_mul_of_nonneg_right (max_le_max (le_refl 0) (by linarith)) (by norm_num)
  split_ifs <;> linarith

theorem scoreFormula_mono_vol5 (cfg : Config) (b w q1 q2 liq fdv : ℚ) {v1 v2 : ℚ}
    (h : v1 ≤ v2) :
    scoreFormula cfg b v1 w q1 q2 liq fdv ≤ scoreFormula cfg b v2 w q1 q2 liq fdv := by
  unfold scoreFormula
  show round2 _ ≤ round2 _
  apply round2_mono
  have ht : min (v1 / 2000) 5 * 8 ≤ min (v2 / 2000) 5 * 8 :=
    mul_le_mul_of_nonneg_right (min_le_min (by linarith) (le_refl 5)) (by norm_num)
  split_ifs <;> linarith

theorem scoreFormula_mono_vol1h (cfg : Config) (b v q1 q2 liq fdv : ℚ) {w1 w2 : ℚ}
    (h : w1 ≤ w2) :
    scoreFormula cfg b v w1 q1 q2 liq fdv ≤ scoreFormula cfg b v w2 q1 q2 liq fdv := by
  unfold scoreFormula
  show round2 _ ≤ round2 _
  apply round2_mono
  have ht : min (w1 / 10000) 5 * 6 ≤ min (w2 / 10000) 5 * 6 :=
    mul_le_mul_of_nonneg_right (min_le_min (by linarith) (le_refl 5)) (by norm_num)
  split_ifs <;> linarith

theorem scoreFormula_cap_vol5 (cfg : Config) (b w q1 q2 liq fdv : ℚ) {v1 v2 : ℚ}
    (h1 : 10000 ≤ v1) (h2 : 10000 ≤ v2) :
    scoreFormula cfg b v1 w q1 q2 liq fdv = scoreFormula cfg b v2 w q1 q2 liq fdv := by
  unfold scoreFormula
  have e1 : min (v1 / 2000) 5 = 5 := min_eq_right (by linarith)
  have e2 : min (v2 / 2000) 5 = 5 := min_eq_right (by linarith)
  simp only [e1, e2]

theorem scoreFormula_cap_vol1h (cfg : Config) (b v q1 q2 liq fdv : ℚ) {w1 w2 : ℚ}
    (h1 : 50000 ≤ w1) (h2 : 50000 ≤ w2) :
    scoreFormula cfg b v w1 q1 q2 liq fdv = scoreFormula cfg b v w2 q1 q2 liq fdv := by
  unfold scoreFormula
  have e1 : min (w1 / 10000) 5 = 5 := min_eq_right (by linarith)
  have e2 : min (w2 / 10000) 5 = 5 := min_eq_right (by linarith)
  simp only [e1, e2]

/-- C7: holding all other signals of a record fixed, `memecoin_score` is
monotonically non-decreasing in the 5-minute buy/sell ratio bsr5 (varying only
the 5-minute transaction counts), monotonically non-decreasing in volume5m up
to V1*capA and in volume1h up to V2*capB, and each capped volume term is
constant beyond its cap. -/
theorem memecoin_score_monotone (cfg : Config) (p : Pair) :
    (∀ t1 t2 : Option Txns,
        bsr5 { p with txnsM5 := t1 } ≤ bsr5 { p with txnsM5 := t2 } →
        memecoin_score cfg { p with txnsM5 := t1 } ≤ memecoin_score cfg { p with txnsM5 := t2 })
    ∧ (∀ v1 v2 : ℚ, v1 ≤ v2 → v2 ≤ V1 * capA →
        memecoin_score cfg { p with volumeM5 := some v1 }
          ≤ memecoin_score cfg { p with volumeM5 := some v2 })
    ∧ (∀ w1 w2 : ℚ, w1 ≤ w2 → w2 ≤ V2 * capB →
        memecoin_score cfg { p with volumeH1 := some w1 }
          ≤ memecoin_score cfg { p with volumeH1 := some w2 })
    ∧ (∀ v1 v2 : ℚ, V1 * capA ≤ v1 → V1 * capA ≤ v2 →
        memecoin_score cfg { p with volumeM5 := some v1 }
          = memecoin_score cfg { p with volumeM5 := some v2 })
    ∧ (∀ w1 w2 : ℚ, V2 * capB ≤ w1 → V2 * capB ≤ w2 →
        memecoin_score cfg { p with volumeH1 := some w1 }
          = memecoin_score cfg { p with volumeH1 := some w2 }) := by
  have hA : (V1 * capA : ℚ) = 10000 := by norm_num [V1, capA]
  have hB : (V2 * capB : ℚ) = 50000 := by norm_num [V2, capB]
  refine ⟨?_, ?_, ?_, ?_, ?_⟩
  · intro t1 t2 h
    rw [memecoin_score_eq_formula, memecoin_score_eq_formula]
    exact scoreFormula_mono_bsr cfg _ _ _ _ _ _ h
  · intro v1 v2 h hcap
    rw [memecoin_score_eq_formula, memecoin_score_eq_formula]
    exact scoreFormula_mono_vol5 cfg _ _ _ _ _ _ h
  · intro w1 w2 h hcap
    rw [memecoin_score_eq_formula, memecoin_score_eq_formula]
    exact scoreFormula_mono_vol1h cfg _ _ _ _ _ _ h
  · intro v1 v2 h1 h2
    rw [memecoin_score_eq_formula, memecoin_score_eq_formula]
    exact scoreFormula_cap_vol5 cfg _ _ _ _ _ _ (hA ▸ h1) (hA ▸ h2)
  · intro w1 w2 h1 h2
    rw [memecoin_score_eq_formula, memecoin_score_eq_formula]
    exact scoreFormula_cap_vol1h cfg _ _ _ _ _ _ (hB ▸ h1) (hB ▸ h2)

/-- Witness for C7 at concrete inputs: volume monotonicity at 100 ≤ 200, cap
constancy at 50000 and 60000, and buy/sell-ratio monotonicity at 10/5 ≤ 20/5. -/
theorem memecoin_score_monotone_witness :
    memecoin_score defaultConfig { blankPair with volumeM5 := some 100 }
      ≤ memecoin_score defaultConfig { blankPair with volumeM5 := some 200 } ∧
    memecoin_score defaultConfig { blankPair with volumeH1 := some 50000 }
      = memecoin_score defaultConfig { blankPair with volumeH1 := some 60000 } ∧
    memecoin_score defaultConfig { blankPair with txnsM5 := some ⟨some 10, some 5⟩ }
      ≤ memecoin_score defaultConfig { blankPair with txnsM5 := some ⟨some 20, some 5⟩ } := by
  refine ⟨(memecoin_score_monotone defaultConfig blankPair).2.1 100 200 (by norm_num)
      (by norm_num [V1, capA]),
    (memecoin_score_monotone defaultConfig blankPair).2.2.2.2 50000 60000
      (by norm_num [V2, capB]) (by norm_num [V2, capB]),
    (memecoin_score_monotone defaultConfig blankPair).1 (some ⟨some 10, some 5⟩)
      (some ⟨some 20, some 5⟩) ?_⟩
  norm_num [bsr5, tx5buys, tx5sells, blankPair, max_def]
